import Mathlib

/-!
Verification development for the `clobber` TCP load-generation engine.

Part 1 models the dynamic worker pool of `src/pool.rs` as an explicit state
machine: the `WorkerPool` struct becomes `PoolState`, its methods become pure
state transformers, and the asynchronous environment (worker completions,
result emissions, externally sent commands) becomes a small-step relation
`PoolStep`.  Channels are modelled by their queued contents: the bounded
results channel and the downstream output channel are lists, the close channel
is a count of queued unit messages, and the unbounded crossbeam event/command
channels are FIFO lists.  The spawned worker futures themselves are counted by
the extra field `live` (spawned, not yet completed); the job function is
external to the pool's bookkeeping and is not part of the state.

Part 2 models the rate-limited connection driver of `src/client/tcp.rs`:
`std::time::Duration` is embedded as seconds/nanoseconds pairs with the same
renormalising arithmetic as Rust, and the `clobber` function's thread/slot
plan, stagger sleeps, per-iteration pacing and exit behaviour are embedded as
pure functions of the configuration and of per-iteration oracle inputs
(connect/write/read outcomes, clock readings).
-/

set_option autoImplicit false

namespace Clobber

/-- `WorkerEvent` from `src/pool.rs`: emitted exactly once per worker
completion on the unbounded worker-event channel. -/
inductive WorkerEvent where
  | WorkerDone
  | WorkerStopped
deriving DecidableEq, Repr

/-- `WorkerPoolCommand` from `src/pool.rs`. -/
inductive WorkerPoolCommand where
  | Stop
  | SetWorkerCount (n : Nat)
deriving DecidableEq, Repr

/-- `JobStatus` from `src/pool.rs`: terminal status returned by a job. -/
inductive JobStatus where
  | Done
  | Stopped
  | Running
deriving DecidableEq, Repr

/-- Reason the `work()` loop of `src/pool.rs` exits: either `event_loop`
returned `false` (a `Stop` command was processed), or `working()` returned
`false` after balancing. -/
inductive ExitReason where
  | stopCommand
  | drained
deriving DecidableEq, Repr

/-- State of `WorkerPool<In, Out, F>` from `src/pool.rs`, together with the
contents of its channels and the number of live spawned worker futures.

* `num_workers`: how many workers we want (the target);
* `cur_workers`: how many workers we actually have on the books;
* `queue`: outstanding tasks (`VecDeque`, push at back, pop at front);
* `output`: everything sent so far on the downstream output channel;
* `results`: messages currently queued in the internal results channel;
* `close_pending`: unit messages queued in the close channel;
* `events`: messages queued in the unbounded worker-event channel (FIFO);
* `commands`: messages queued in the unbounded command channel (FIFO);
* `outstanding_stops`: stop requests sent but not yet acknowledged;
* `live`: spawned worker futures that have not yet completed (the tasks
  created by `async_std::task::spawn` in `start_worker`). -/
structure PoolState (ι ω : Type) where
  num_workers : Nat
  cur_workers : Nat
  queue : List ι
  output : List ω
  results : List ω
  close_pending : Nat
  events : List WorkerEvent
  commands : List WorkerPoolCommand
  outstanding_stops : Nat
  live : Nat
deriving DecidableEq, Repr

variable {ι ω : Type}

/-- `WorkerPool::new`: fresh pool with a given initial target count.  Note the
`num_workers` argument is stored as-is; there is no `0 => 1` normalization on
this path. -/
def mkPool (num_workers : Nat) : PoolState ι ω :=
  { num_workers := num_workers
    cur_workers := 0
    queue := []
    output := []
    results := []
    close_pending := 0
    events := []
    commands := []
    outstanding_stops := 0
    live := 0 }

/-- `WorkerPool::cur_workers()`: `self.cur_workers - self.outstanding_stops`.
The Rust subtraction is on `usize` and panics on underflow; we compute in `ℤ`
so that the sign of the effective count is visible. -/
def effWorkers (p : PoolState ι ω) : Int :=
  (p.cur_workers : Int) - (p.outstanding_stops : Int)

/-- `WorkerPool::target_workers()`. -/
def targetWorkers (p : PoolState ι ω) : Nat :=
  p.num_workers

/-- `WorkerPool::working()`: `self.cur_workers() > 0`. -/
def working (p : PoolState ι ω) : Bool :=
  decide (0 < effWorkers p)

/-- `WorkerPool::set_target_workers`: sets the target with no normalization. -/
def set_target_workers (p : PoolState ι ω) (n : Nat) : PoolState ι ω :=
  { p with num_workers := n }

/-- `WorkerPool::push`: `self.queue.push_back(task)`. -/
def pushTask (p : PoolState ι ω) (x : ι) : PoolState ι ω :=
  { p with queue := p.queue ++ [x] }

/-- A sequence of `push` calls, oldest first. -/
def pushAll (p : PoolState ι ω) (xs : List ι) : PoolState ι ω :=
  xs.foldl pushTask p

/-- One `WorkerEvent` being handled inside `event_loop`:
`WorkerDone` decrements `cur_workers`; `WorkerStopped` additionally
decrements `outstanding_stops`. -/
def applyEvent (p : PoolState ι ω) (e : WorkerEvent) : PoolState ι ω :=
  match e with
  | WorkerEvent.WorkerDone =>
      { p with cur_workers := p.cur_workers - 1 }
  | WorkerEvent.WorkerStopped =>
      { p with cur_workers := p.cur_workers - 1
               outstanding_stops := p.outstanding_stops - 1 }

/-- The first `while let Ok(event) = ... try_recv()` loop of `event_loop`,
draining the worker-event channel in FIFO order. -/
def applyEvents : List WorkerEvent → PoolState ι ω → PoolState ι ω
  | [], p => p
  | e :: es, p => applyEvents es (applyEvent p e)

/-- Drain the worker-event channel: process every queued event, leaving the
channel empty. -/
def processEvents (p : PoolState ι ω) : PoolState ι ω :=
  { applyEvents p.events p with events := [] }

/-- The `SetWorkerCount(n)` arm of `event_loop`: `0` is normalized to `1`. -/
def setWorkerCountCmd (p : PoolState ι ω) (n : Nat) : PoolState ι ω :=
  { p with num_workers := if n = 0 then 1 else n }

/-- The second `while let Ok(command) = ... try_recv()` loop of `event_loop`:
commands are consumed in FIFO order; `Stop` returns `false` immediately
(messages behind it stay in the channel); `SetWorkerCount` retargets and
continues.  The returned `Bool` is `event_loop`'s "continue execution". -/
def runCommandsGo : List WorkerPoolCommand → PoolState ι ω → PoolState ι ω × Bool
  | [], p => (p, true)
  | WorkerPoolCommand.Stop :: rest, p => ({ p with commands := rest }, false)
  | WorkerPoolCommand.SetWorkerCount n :: rest, p =>
      runCommandsGo rest (setWorkerCountCmd p n)

/-- `WorkerPool::event_loop`: drain worker events, then drain commands. -/
def event_loop (p : PoolState ι ω) : PoolState ι ω × Bool :=
  runCommandsGo p.commands { processEvents p with commands := [] }

/-- `WorkerPool::flush_output`: move every queued result to the output
channel, in arrival order. -/
def flush_output (p : PoolState ι ω) : PoolState ι ω :=
  { p with results := [], output := p.output ++ p.results }

/-- `WorkerPool::start_worker`: if the queue is non-empty, pop its front item,
spawn a worker future for it (`live` increases) and increment `cur_workers`;
otherwise do nothing.  The popped item is handed to the externally supplied
job function, which is not part of the pool's bookkeeping. -/
def start_worker (p : PoolState ι ω) : PoolState ι ω :=
  match p.queue with
  | [] => p
  | _ :: rest =>
      { p with queue := rest
               cur_workers := p.cur_workers + 1
               live := p.live + 1 }

/-- `WorkerPool::send_stop_work_message`: increment `outstanding_stops` and
queue one unit message on the close channel. -/
def send_stop_work_message (p : PoolState ι ω) : PoolState ι ω :=
  { p with outstanding_stops := p.outstanding_stops + 1
           close_pending := p.close_pending + 1 }

/-- `WorkerPool::balance_workers`: below target starts (at most) one worker,
above target sends exactly one stop message, at target does nothing. -/
def balance_workers (p : PoolState ι ω) : PoolState ι ω :=
  if effWorkers p < (targetWorkers p : Int) then start_worker p
  else if (targetWorkers p : Int) < effWorkers p then send_stop_work_message p
  else p

/-- One iteration of the `loop` inside `WorkerPool::work`: flush output,
process events and commands (exiting on `Stop`), balance workers, and exit if
no effective workers remain. -/
def tick (p : PoolState ι ω) : PoolState ι ω × Option ExitReason :=
  let p1 := flush_output p
  let pair := event_loop p1
  if pair.2 then
    let p3 := balance_workers pair.1
    if working p3 then (p3, none) else (p3, some ExitReason.drained)
  else (pair.1, some ExitReason.stopCommand)

/-- The completion wrapper spawned by `start_worker`: turns the terminal
`JobStatus` of the job future into the single `WorkerEvent` it sends on the
worker-event channel.  `JobStatus::Running` hits the
`panic!("this shouldn't happen")` arm, modelled as `none`: no event is emitted
and the wrapper aborts. -/
def workerCompletionEvent (status : JobStatus) : Option WorkerEvent :=
  match status with
  | JobStatus.Done => some WorkerEvent.WorkerDone
  | JobStatus.Stopped => some WorkerEvent.WorkerStopped
  | JobStatus.Running => none

/-- Number of `WorkerStopped` messages in an event queue. -/
def countStopped : List WorkerEvent → Nat
  | [] => 0
  | WorkerEvent.WorkerStopped :: es => countStopped es + 1
  | WorkerEvent.WorkerDone :: es => countStopped es

/-- Whether a command queue contains a `Stop` command. -/
def hasStopCmd : List WorkerPoolCommand → Bool
  | [] => false
  | WorkerPoolCommand.Stop :: _ => true
  | WorkerPoolCommand.SetWorkerCount _ :: rest => hasStopCmd rest

/-- Bookkeeping invariant tying the pool's counters to the channel contents:
`cur_workers` counts live futures plus unprocessed completion events, and
`outstanding_stops` counts queued close messages plus unprocessed
`WorkerStopped` events.  The third conjunct — at most one queued close message
per live worker — additionally holds whenever workers consume pending close
signals before completing (the cooperative-cancellation contract). -/
def GoodState (p : PoolState ι ω) : Prop :=
  p.cur_workers = p.live + p.events.length
  ∧ p.outstanding_stops = p.close_pending + countStopped p.events
  ∧ p.close_pending ≤ p.live

instance (p : PoolState ι ω) : Decidable (GoodState p) := by
  unfold GoodState; infer_instance

/-- Small-step transitions of a running pool and its environment.  `coop`
selects the cooperative-cancellation contract: when `coop = true`, a worker
may complete with `JobStatus::Done` only if no close message is pending (it
would otherwise have observed `stop_requested()` and completed `Stopped`);
when `coop = false`, a worker may complete `Done` at any time, which is what
the Rust job-function type allows (the close message is simply never
received).  A `Stopped` completion always consumes one close message, because
`Job::stop_requested` reports `true` exactly when `try_recv` dequeues one. -/
inductive PoolStep (coop : Bool) : PoolState ι ω → PoolState ι ω → Prop where
  | pushStep (p q : PoolState ι ω) (x : ι) :
      q = pushTask p x → PoolStep coop p q
  | tickStep (p q : PoolState ι ω) (r : Option ExitReason) :
      tick p = (q, r) → PoolStep coop p q
  | completeDone (p q : PoolState ι ω) :
      0 < p.live → (coop = true → p.close_pending = 0) →
      q = { p with live := p.live - 1
                   events := p.events ++ [WorkerEvent.WorkerDone] } →
      PoolStep coop p q
  | completeStopped (p q : PoolState ι ω) :
      0 < p.live → 0 < p.close_pending →
      q = { p with live := p.live - 1
                   close_pending := p.close_pending - 1
                   events := p.events ++ [WorkerEvent.WorkerStopped] } →
      PoolStep coop p q
  | emitResult (p q : PoolState ι ω) (y : ω) :
      0 < p.live → q = { p with results := p.results ++ [y] } →
      PoolStep coop p q
  | sendCommand (p q : PoolState ι ω) (c : WorkerPoolCommand) :
      q = { p with commands := p.commands ++ [c] } → PoolStep coop p q

/-- States reachable from a freshly created pool with initial target `n`
under pushes, run-loop ticks, worker completions, result emissions and
externally sent commands. -/
def PoolReachable (coop : Bool) (n : Nat) (s : PoolState ι ω) : Prop :=
  Relation.ReflTransGen (PoolStep coop) (mkPool n) s

/-! ## The rate-limited connection driver (`src/client/tcp.rs`) -/

/-- `NANOS_PER_SEC` of `std::time::Duration`. -/
def NANOS_PER_SEC : Nat := 1000000000

/-- `std::time::Duration`: seconds plus a sub-second nanosecond part. -/
structure Duration where
  secs : Nat
  nanos : Nat
deriving DecidableEq, Repr

/-- A `Duration` whose nanosecond part is in range, as every `Duration`
produced by the Rust constructors is. -/
def Duration.normalized (d : Duration) : Prop :=
  d.nanos < NANOS_PER_SEC

instance (d : Duration) : Decidable d.normalized := by
  unfold Duration.normalized
  infer_instance

/-- Total length in nanoseconds. -/
def Duration.toNanos (d : Duration) : Nat :=
  d.secs * NANOS_PER_SEC + d.nanos

/-- `Duration::from_nanos`. -/
def Duration.fromNanos (n : Nat) : Duration :=
  { secs := n / NANOS_PER_SEC, nanos := n % NANOS_PER_SEC }

/-- `Duration * u32` (`impl Mul<u32> for Duration`): multiply both parts and
carry the overflowing nanoseconds into the seconds. -/
def Duration.mulNat (d : Duration) (k : Nat) : Duration :=
  { secs := d.secs * k + d.nanos * k / NANOS_PER_SEC
    nanos := d.nanos * k % NANOS_PER_SEC }

/-- `Duration` comparison (`PartialOrd`): lexicographic on seconds then
nanoseconds. -/
def Duration.ltb (a b : Duration) : Bool :=
  decide (a.secs < b.secs) || (decide (a.secs = b.secs) && decide (a.nanos < b.nanos))

/-- `Duration` subtraction, borrowing a second when the nanosecond part of the
subtrahend is larger; used only when the subtrahend is smaller. -/
def Duration.sub (a b : Duration) : Duration :=
  if b.nanos ≤ a.nanos then
    { secs := a.secs - b.secs, nanos := a.nanos - b.nanos }
  else
    { secs := a.secs - b.secs - 1, nanos := a.nanos + NANOS_PER_SEC - b.nanos }

/-- `Config` from `src/client/tcp.rs`.  The socket address is opaque to the
core and kept as a plain string; timeouts are in milliseconds. -/
structure Config where
  rate : Option Nat
  target : String
  duration : Option Duration
  num_threads : Nat
  connect_timeout : Nat
  read_timeout : Nat
  connections : Nat
deriving DecidableEq, Repr

/-- `Message`: the opaque request payload (`body` bytes). -/
structure Message where
  body : List Nat
deriving DecidableEq, Repr

/-- `num_threads` resolution in `clobber`: `0` means the host CPU count. -/
def resolvedThreads (numCpus num_threads : Nat) : Nat :=
  if num_threads = 0 then numCpus else num_threads

/-- `conns_per_thread` in `clobber`: integer division, floored to at least 1
("things get weird if you have fewer connections than threads"). -/
def connsPerThread (connections nthreads : Nat) : Nat :=
  if connections / nthreads = 0 then 1 else connections / nthreads

/-- The `tick` computed in `clobber`: `1e9 / rate` nanoseconds when a rate is
configured (in Rust this division panics for a configured rate of `0`),
`Duration::default()` otherwise. -/
def tickDuration (rate : Option Nat) : Duration :=
  match rate with
  | some r => Duration.fromNanos (1000000000 / r)
  | none => { secs := 0, nanos := 0 }

/-- Outcome of the per-iteration pacing block at the bottom of a slot's
loop. -/
inductive PaceResult where
  | sleep (d : Duration)
  | advisory
  | noPacing
deriving DecidableEq, Repr

/-- The pacing block of a slot iteration: only runs when a rate is
configured; computes `delay = tick * conns_per_thread * num_threads`, sleeps
the remainder when the iteration's own elapsed time is below the delay, and
otherwise just logs the advisory warning. -/
def paceIteration (rate : Option Nat) (cpt nthreads : Nat) (elapsed : Duration) :
    PaceResult :=
  match rate with
  | none => PaceResult.noPacing
  | some r =>
      let tick := Duration.fromNanos (1000000000 / r)
      let delay := (tick.mulNat cpt).mulNat nthreads
      if elapsed.ltb delay then PaceResult.sleep (delay.sub elapsed)
      else PaceResult.advisory

/-- The stagger sleep executed by slot `i` (0-indexed within its thread)
before entering its loop: `tick * num_threads * i`, executed only when a rate
is configured. -/
def staggerSleep (rate : Option Nat) (nthreads i : Nat) : Option Duration :=
  if rate.isSome then some (((tickDuration rate).mulNat nthreads).mulNat i)
  else none

/-- One slot of the per-thread plan built by `clobber`: the stagger sleep it
performs before its first iteration. -/
structure SlotPlan where
  stagger : Option Duration
deriving DecidableEq, Repr

/-- Effective stagger sleep of a slot in nanoseconds (an absent sleep lasts
zero nanoseconds). -/
def staggerNanosOf (sp : SlotPlan) : Nat :=
  match sp.stagger with
  | some d => d.toNanos
  | none => 0

/-- One OS thread of the plan built by `clobber`, owning `conns_per_thread`
slots driven by its own `LocalPool`. -/
structure ThreadPlan where
  slots : List SlotPlan
deriving DecidableEq, Repr

/-- The moment (nanoseconds after `clobber` starts spawning) at which thread
`t` is launched: the spawn loop sleeps one `tick` after launching each
thread. -/
def threadLaunchOffsetNanos (rate : Option Nat) : Nat → Nat
  | 0 => 0
  | t + 1 => threadLaunchOffsetNanos rate t + (tickDuration rate).toNanos

/-- The error type of `clobber`'s `std::io::Result<()>` return value. -/
inductive IoErr where
  | other
deriving DecidableEq, Repr

/-- The thread/slot topology `clobber` spawns: `num_threads` threads, each
with `conns_per_thread` slots, slot `i` staggered by `tick * num_threads * i`
when a rate is configured. -/
def clobberPlan (numCpus : Nat) (cfg : Config) : List ThreadPlan :=
  let nthreads := resolvedThreads numCpus cfg.num_threads
  let cpt := connsPerThread cfg.connections nthreads
  (List.range nthreads).map fun _ =>
    { slots := (List.range cpt).map fun i => { stagger := staggerSleep cfg.rate nthreads i } }

/-- `clobber(config, message)`: spawns the plan, joins every thread, and
returns `Ok(())`.  The one deterministic abort in the pure part of the
function — the `1e9 / rate` division panics when the configured rate is
`0` — is modelled as `none`; no path constructs the `Err` branch of the
result. -/
def clobber (numCpus : Nat) (cfg : Config) (msg : Message) :
    Option (Except IoErr (List ThreadPlan)) :=
  if cfg.rate = some 0 then none
  else some (Except.ok (clobberPlan numCpus cfg))

/-- Observable effects of one iteration of a slot's connect/write/read loop.
`terminated` means the `break` on the duration check was taken; otherwise
`connected`/`wrote`/`readAttempted` record which phases ran, and `pace` the
pacing action at the bottom of the loop body. -/
structure IterResult where
  terminated : Bool
  connected : Bool
  wrote : Bool
  readAttempted : Bool
  pace : PaceResult
deriving DecidableEq, Repr

/-- One iteration of a slot's loop in `clobber`.  `start` and `now` are the
shared run start and the current instant, in nanoseconds; `connectOk`,
`writeOk` and `readOk` are the outcomes the network delivers for each phase
this iteration (oracle inputs).  A connect failure skips write and read, a
write failure skips the read, and the read's own result is discarded with
`.ok()`; in every non-terminated case control reaches the pacing block. -/
def slotIteration (rate : Option Nat) (cpt nthreads : Nat)
    (duration : Option Duration) (start now : Nat)
    (connectOk writeOk readOk : Bool) (elapsedIter : Duration) : IterResult :=
  match duration with
  | some d =>
      if start + d.toNanos ≤ now then
        { terminated := true, connected := false, wrote := false
          readAttempted := false, pace := PaceResult.noPacing }
      else
        { terminated := false
          connected := connectOk
          wrote := connectOk && writeOk
          readAttempted := connectOk && writeOk
          pace := paceIteration rate cpt nthreads elapsedIter }
  | none =>
      { terminated := false
        connected := connectOk
        wrote := connectOk && writeOk
        readAttempted := connectOk && writeOk
        pace := paceIteration rate cpt nthreads elapsedIter }

/-- A concrete pool state (tasks and results instantiated at `Nat`) reached by
an actual run: right after the tick that processed `SetWorkerCount 1` while
four workers were running, one stop message has been queued, so
`cur_workers = 4`, `outstanding_stops = 1` and the target is `1`. -/
def exState1 : PoolState Nat Nat :=
  { num_workers := 1, cur_workers := 4, queue := [], output := [], results := []
    close_pending := 1, events := [], commands := [], outstanding_stops := 1
    live := 4 }

/-- The state reached from `exState1` after all four workers complete with
`JobStatus::Done` — none of them having polled `stop_requested` after the
close message was queued — and the next tick processes their events:
`cur_workers = 0` while `outstanding_stops = 1`, so the `usize` subtraction
in `WorkerPool::cur_workers` underflows (the effective count is `-1`). -/
def exState2 : PoolState Nat Nat :=
  { num_workers := 1, cur_workers := 0, queue := [], output := [], results := []
    close_pending := 1, events := [], commands := [], outstanding_stops := 1
    live := 0 }

/-! ## Structural lemmas about the pool operations -/

theorem countStopped_le (es : List WorkerEvent) : countStopped es ≤ es.length := by
  induction es with
  | nil => simp [countStopped]
  | cons e es ih => cases e <;> simp [countStopped] <;> omega

theorem applyEvents_eq (es : List WorkerEvent) (p : PoolState ι ω) :
    applyEvents es p =
      { p with cur_workers := p.cur_workers - es.length
               outstanding_stops := p.outstanding_stops - countStopped es } := by
  induction es generalizing p with
  | nil => simp [applyEvents, countStopped]
  | cons e es ih =>
      cases e <;>
        simp only [applyEvents, applyEvent, ih, countStopped, List.length_cons] <;>
        · congr 1 <;> omega

theorem processEvents_eq (p : PoolState ι ω) :
    processEvents p =
      { p with cur_workers := p.cur_workers - p.events.length
               outstanding_stops := p.outstanding_stops - countStopped p.events
               events := [] } := by
  simp [processEvents, applyEvents_eq]

theorem runCommandsGo_snd (cmds : List WorkerPoolCommand) (p : PoolState ι ω) :
    (runCommandsGo cmds p).2 = !hasStopCmd cmds := by
  induction cmds generalizing p with
  | nil => simp [runCommandsGo, hasStopCmd]
  | cons c cmds ih =>
      cases c <;> simp [runCommandsGo, hasStopCmd, ih]

theorem runCommandsGo_fst_fields (cmds : List WorkerPoolCommand) (p : PoolState ι ω) :
    (runCommandsGo cmds p).1.cur_workers = p.cur_workers
  ∧ (runCommandsGo cmds p).1.queue = p.queue
  ∧ (runCommandsGo cmds p).1.output = p.output
  ∧ (runCommandsGo cmds p).1.results = p.results
  ∧ (runCommandsGo cmds p).1.close_pending = p.close_pending
  ∧ (runCommandsGo cmds p).1.events = p.events
  ∧ (runCommandsGo cmds p).1.outstanding_stops = p.outstanding_stops
  ∧ (runCommandsGo cmds p).1.live = p.live := by
  induction cmds generalizing p with
  | nil => simp [runCommandsGo]
  | cons c cmds ih =>
      cases c <;> simp [runCommandsGo, setWorkerCountCmd, ih]

theorem pushAll_eq (xs : List ι) (p : PoolState ι ω) :
    pushAll p xs = { p with queue := p.queue ++ xs } := by
  induction xs generalizing p with
  | nil => simp [pushAll]
  | cons x xs ih =>
      simp only [pushAll, List.foldl_cons] at *
      rw [ih (pushTask p x)]
      simp [pushTask]

theorem tick_eq (p : PoolState ι ω) :
    tick p =
      (if hasStopCmd p.commands then
        ((event_loop (flush_output p)).1, some ExitReason.stopCommand)
      else
        (balance_workers (event_loop (flush_output p)).1,
          if working (balance_workers (event_loop (flush_output p)).1) then none
          else some ExitReason.drained)) := by
  have h2 : (event_loop (flush_output p)).2 = !hasStopCmd p.commands := by
    simp [event_loop, runCommandsGo_snd, flush_output]
  unfold tick
  cases h : hasStopCmd p.commands <;> simp [h2, h]
  split <;> rfl

theorem event_loop_flush_fields (p : PoolState ι ω) :
    (event_loop (flush_output p)).1.cur_workers = p.cur_workers - p.events.length
  ∧ (event_loop (flush_output p)).1.outstanding_stops
      = p.outstanding_stops - countStopped p.events
  ∧ (event_loop (flush_output p)).1.queue = p.queue
  ∧ (event_loop (flush_output p)).1.results = []
  ∧ (event_loop (flush_output p)).1.events = []
  ∧ (event_loop (flush_output p)).1.close_pending = p.close_pending
  ∧ (event_loop (flush_output p)).1.live = p.live := by
  obtain ⟨h1, h2, h3, h4, h5, h6, h7, h8⟩ :=
    runCommandsGo_fst_fields ((flush_output p).commands)
      { processEvents (flush_output p) with commands := [] }
  simp [processEvents_eq, flush_output] at h1 h2 h3 h4 h5 h6 h7 h8
  simp only [event_loop]
  simp [processEvents_eq, flush_output]
  exact ⟨h1, h7, h2, h4, h6, h5, h8⟩

theorem balance_cases (p : PoolState ι ω) :
    (∀ t rest, p.queue = t :: rest → effWorkers p < (targetWorkers p : Int) →
        balance_workers p =
          { p with queue := rest
                   cur_workers := p.cur_workers + 1
                   live := p.live + 1 })
  ∧ (p.queue = [] → effWorkers p < (targetWorkers p : Int) → balance_workers p = p)
  ∧ ((targetWorkers p : Int) < effWorkers p →
        balance_workers p =
          { p with outstanding_stops := p.outstanding_stops + 1
                   close_pending := p.close_pending + 1 })
  ∧ (effWorkers p = (targetWorkers p : Int) → balance_workers p = p) := by
  refine ⟨?_, ?_, ?_, ?_⟩
  · intro t rest hq hlt
    simp [balance_workers, hlt, start_worker, hq]
  · intro hq hlt
    simp [balance_workers, hlt, start_worker, hq]
  · intro hgt
    have hnlt : ¬ effWorkers p < (targetWorkers p : Int) := by omega
    simp [balance_workers, hnlt, hgt, send_stop_work_message]
  · intro heq
    simp [balance_workers, heq]

theorem eff_nonneg_of_good (p : PoolState ι ω) (hg : GoodState p) :
    0 ≤ effWorkers p := by
  have hle := countStopped_le p.events
  obtain ⟨h1, h2, h3⟩ := hg
  simp only [effWorkers]
  omega

theorem good_tick (p : PoolState ι ω) (hg : GoodState p) : GoodState (tick p).1 := by
  obtain ⟨hg1, hg2, hg3⟩ := hg
  have hle := countStopped_le p.events
  obtain ⟨h1, h2, h3, h4, h5, h6, h7⟩ := event_loop_flush_fields p
  rw [tick_eq]
  cases h : hasStopCmd p.commands
  · simp only [Bool.false_eq_true, if_neg, ite_false]
    set q := (event_loop (flush_output p)).1 with hq
    have hgq : GoodState q := by
      refine ⟨?_, ?_, ?_⟩ <;> simp [h1, h2, h5, h6, h7, countStopped] <;> omega
    obtain ⟨hq1, hq2, hq3⟩ := hgq
    unfold balance_workers
    split_ifs with hlt hgt
    · cases hqueue : q.queue with
      | nil => simpa [start_worker, hqueue] using ⟨hq1, hq2, hq3⟩
      | cons t rest =>
          refine ⟨?_, ?_, ?_⟩ <;> simp [start_worker, hqueue, hq1, hq2] <;> omega
    · have : q.close_pending < q.live := by
        simp only [effWorkers, targetWorkers] at hgt
        omega
      refine ⟨?_, ?_, ?_⟩ <;> simp [send_stop_work_message, hq1, hq2] <;> omega
    · exact ⟨hq1, hq2, hq3⟩
  · simp only [ite_true]
    refine ⟨?_, ?_, ?_⟩ <;> simp [h1, h2, h5, h6, h7, countStopped] <;> omega

theorem countStopped_append (es fs : List WorkerEvent) :
    countStopped (es ++ fs) = countStopped es + countStopped fs := by
  induction es with
  | nil => simp [countStopped]
  | cons e es ih => cases e <;> simp [countStopped, ih] <;> omega

theorem good_mkPool (n : Nat) : GoodState (mkPool n : PoolState ι ω) := by
  refine ⟨?_, ?_, ?_⟩ <;> simp [mkPool, countStopped]

theorem good_step (p q : PoolState ι ω) (hg : GoodState p) (hs : PoolStep true p q) :
    GoodState q := by
  obtain ⟨h1, h2, h3⟩ := hg
  cases hs with
  | pushStep x hq =>
      subst hq; exact ⟨by simpa [pushTask] using h1, by simpa [pushTask] using h2,
        by simpa [pushTask] using h3⟩
  | tickStep r hq =>
      have h := good_tick p ⟨h1, h2, h3⟩
      have hq1 : (tick p).1 = q := by rw [hq]
      rwa [hq1] at h
  | completeDone hl hc hq =>
      subst hq
      have hc0 : p.close_pending = 0 := hc rfl
      refine ⟨?_, ?_, ?_⟩ <;> simp [countStopped_append, countStopped] <;> omega
  | completeStopped hl hcp hq =>
      subst hq
      refine ⟨?_, ?_, ?_⟩ <;> simp [countStopped_append, countStopped] <;> omega
  | emitResult y hl hq =>
      subst hq
      exact ⟨by simpa using h1, by simpa using h2, by simpa using h3⟩
  | sendCommand c hq =>
      subst hq
      exact ⟨by simpa using h1, by simpa using h2, by simpa using h3⟩

theorem good_reachable (n : Nat) (s : PoolState ι ω) (h : PoolReachable true n s) :
    GoodState s := by
  induction h with
  | refl => exact good_mkPool n
  | tail hab hbc ih => exact good_step _ _ ih hbc

theorem eff_tick_le (p : PoolState ι ω) (hg : GoodState p) :
    effWorkers (tick p).1 ≤ max (effWorkers p) (((tick p).1.num_workers : Int)) := by
  obtain ⟨hg1, hg2, hg3⟩ := hg
  have hle := countStopped_le p.events
  obtain ⟨h1, h2, h3, h4, h5, h6, h7⟩ := event_loop_flush_fields p
  rw [tick_eq]
  cases h : hasStopCmd p.commands
  · simp only [Bool.false_eq_true, if_false]
    set q := (event_loop (flush_output p)).1 with hqdef
    have heffq : effWorkers q ≤ effWorkers p := by
      simp only [effWorkers]
      rw [h1, h2]
      omega
    unfold balance_workers
    split_ifs with hlt hgt
    · cases hqueue : q.queue with
      | nil =>
          simp only [start_worker, hqueue]
          exact le_trans heffq (le_max_left _ _)
      | cons t rest =>
          refine le_trans ?_ (le_max_right _ _)
          simp only [effWorkers, targetWorkers] at hlt ⊢
          simp only [start_worker, hqueue]
          push_cast
          omega
    · refine le_trans ?_ (le_max_left _ _)
      refine le_trans ?_ heffq
      simp only [send_stop_work_message, effWorkers]
      push_cast
      omega
    · exact le_trans heffq (le_max_left _ _)
  · simp only [if_true]
    exact le_trans (by
      simp only [effWorkers]
      rw [h1, h2]
      omega) (le_max_left _ _)

theorem eff_step_le (coop : Bool) (p q : PoolState ι ω) (hg : GoodState p)
    (hs : PoolStep coop p q) :
    effWorkers q ≤ max (effWorkers p) ((targetWorkers q : Int)) := by
  cases hs with
  | pushStep x hq =>
      subst hq
      exact le_trans (le_of_eq (by simp [pushTask, effWorkers])) (le_max_left _ _)
  | tickStep r hq =>
      have h := eff_tick_le p hg
      have hq1 : (tick p).1 = q := by rw [hq]
      rw [hq1] at h
      simpa [targetWorkers] using h
  | completeDone hl hc hq =>
      subst hq
      exact le_trans (le_of_eq (by simp [effWorkers])) (le_max_left _ _)
  | completeStopped hl hcp hq =>
      subst hq
      exact le_trans (le_of_eq (by simp [effWorkers])) (le_max_left _ _)
  | emitResult y hl hq =>
      subst hq
      exact le_trans (le_of_eq (by simp [effWorkers])) (le_max_left _ _)
  | sendCommand c hq =>
      subst hq
      exact le_trans (le_of_eq (by simp [effWorkers])) (le_max_left _ _)

theorem eff_reachable_nonneg (n : Nat) (s : PoolState ι ω)
    (h : PoolReachable true n s) : 0 ≤ effWorkers s :=
  eff_nonneg_of_good s (good_reachable n s h)

theorem tick_snd_stop_iff (p : PoolState ι ω) :
    (tick p).2 = some ExitReason.stopCommand ↔ hasStopCmd p.commands = true := by
  rw [tick_eq]
  cases h : hasStopCmd p.commands <;> simp [h]

theorem tick_snd_none_iff (p : PoolState ι ω) :
    (tick p).2 = none ↔
      (hasStopCmd p.commands = false ∧ working (tick p).1 = true) := by
  rw [tick_eq]
  cases h : hasStopCmd p.commands <;> simp [h]

theorem tick_snd_drained_iff (p : PoolState ι ω) :
    (tick p).2 = some ExitReason.drained ↔
      (hasStopCmd p.commands = false ∧ working (tick p).1 = false) := by
  rw [tick_eq]
  cases h : hasStopCmd p.commands <;> simp [h]

theorem tick_drained_props (p : PoolState ι ω) (hg : GoodState p)
    (hd : (tick p).2 = some ExitReason.drained) :
    effWorkers (tick p).1 = 0 ∧
      ((tick p).1.queue = [] ∨ (tick p).1.num_workers = 0) := by
  obtain ⟨hstop, hwork⟩ := (tick_snd_drained_iff p).1 hd
  have hgq : GoodState (tick p).1 := good_tick p hg
  have hnn : 0 ≤ effWorkers (tick p).1 := eff_nonneg_of_good _ hgq
  have heff0 : effWorkers (tick p).1 = 0 := by
    simp only [working, decide_eq_false_iff_not, not_lt] at hwork
    omega
  refine ⟨heff0, ?_⟩
  obtain ⟨hg1, hg2, hg3⟩ := hg
  have hle := countStopped_le p.events
  obtain ⟨h1, h2, h3, h4, h5, h6, h7⟩ := event_loop_flush_fields p
  rw [tick_eq] at heff0 ⊢
  simp only [hstop, Bool.false_eq_true, if_false] at heff0 ⊢
  set q := (event_loop (flush_output p)).1 with hqdef
  have heffq : 0 ≤ effWorkers q := by
    simp only [effWorkers]
    rw [h1, h2]
    omega
  unfold balance_workers at heff0 ⊢
  split_ifs at heff0 ⊢ with hlt hgt
  · cases hqueue : q.queue with
    | nil =>
        left
        simp [start_worker, hqueue]
    | cons t rest =>
        exfalso
        have hsw : start_worker q =
            { q with queue := rest, cur_workers := q.cur_workers + 1,
                     live := q.live + 1 } := by
          simp [start_worker, hqueue]
        rw [hsw] at heff0
        simp only [effWorkers] at heff0 heffq
        push_cast at heff0
        omega
  · right
    simp only [send_stop_work_message, effWorkers] at heff0
    simp only [effWorkers, targetWorkers] at hgt
    simp only [send_stop_work_message]
    push_cast at heff0
    omega
  · right
    simp only [effWorkers, targetWorkers] at hlt hgt
    simp only [effWorkers] at heff0
    omega

/-! ## Claims about the worker pool -/

/-- Claim C1 is false on the code: both halves of the stated invariant fail on
reachable states.  `exState1` is reached by pushing four tasks, ticking four
times (starting four workers), sending `SetWorkerCount 1` and ticking once:
its effective count is `3`, which exceeds the new target `1` by more than `1`.
Continuing that same run, all four workers complete `Done` without having
consumed the pending close message — the job-function contract permits this,
since a worker polls `stop_requested` only at points of its own choosing — and
the next tick drives the effective count to `-1 < 0` (in Rust,
`cur_workers - outstanding_stops` underflows its `usize` subtraction). -/
theorem C1_counterexample :
    PoolReachable false 4 exState1
  ∧ (targetWorkers exState1 : Int) + 1 < effWorkers exState1
  ∧ PoolReachable false 4 exState2
  ∧ effWorkers exState2 < 0 := by
  have h1 : PoolReachable false 4 exState1 := by
    show Relation.ReflTransGen (PoolStep false) (mkPool 4) exState1
    refine Relation.ReflTransGen.head
      (PoolStep.pushStep _ (⟨4, 0, [0], [], [], 0, [], [], 0, 0⟩ : PoolState Nat Nat)
        0 (by decide)) ?_
    refine Relation.ReflTransGen.head
      (PoolStep.pushStep _ (⟨4, 0, [0, 1], [], [], 0, [], [], 0, 0⟩ : PoolState Nat Nat)
        1 (by decide)) ?_
    refine Relation.ReflTransGen.head
      (PoolStep.pushStep _ (⟨4, 0, [0, 1, 2], [], [], 0, [], [], 0, 0⟩ : PoolState Nat Nat)
        2 (by decide)) ?_
    refine Relation.ReflTransGen.head
      (PoolStep.pushStep _ (⟨4, 0, [0, 1, 2, 3], [], [], 0, [], [], 0, 0⟩ : PoolState Nat Nat)
        3 (by decide)) ?_
    refine Relation.ReflTransGen.head
      (PoolStep.tickStep _ (⟨4, 1, [1, 2, 3], [], [], 0, [], [], 0, 1⟩ : PoolState Nat Nat)
        none (by decide)) ?_
    refine Relation.ReflTransGen.head
      (PoolStep.tickStep _ (⟨4, 2, [2, 3], [], [], 0, [], [], 0, 2⟩ : PoolState Nat Nat)
        none (by decide)) ?_
    refine Relation.ReflTransGen.head
      (PoolStep.tickStep _ (⟨4, 3, [3], [], [], 0, [], [], 0, 3⟩ : PoolState Nat Nat)
        none (by decide)) ?_
    refine Relation.ReflTransGen.head
      (PoolStep.tickStep _ (⟨4, 4, [], [], [], 0, [], [], 0, 4⟩ : PoolState Nat Nat)
        none (by decide)) ?_
    refine Relation.ReflTransGen.head
      (PoolStep.sendCommand _
        (⟨4, 4, [], [], [], 0, [], [WorkerPoolCommand.SetWorkerCount 1], 0, 4⟩ :
          PoolState Nat Nat)
        (WorkerPoolCommand.SetWorkerCount 1) (by decide)) ?_
    exact Relation.ReflTransGen.single (PoolStep.tickStep _ exState1 none (by decide))
  have h2 : PoolReachable false 4 exState2 := by
    refine Relation.ReflTransGen.trans h1 ?_
    refine Relation.ReflTransGen.head
      (PoolStep.completeDone _
        (⟨1, 4, [], [], [], 1, [WorkerEvent.WorkerDone], [], 1, 3⟩ : PoolState Nat Nat)
        (by decide) (by decide) (by decide)) ?_
    refine Relation.ReflTransGen.head
      (PoolStep.completeDone _
        (⟨1, 4, [], [], [], 1, [WorkerEvent.WorkerDone, WorkerEvent.WorkerDone], [], 1, 2⟩ :
          PoolState Nat Nat)
        (by decide) (by decide) (by decide)) ?_
    refine Relation.ReflTransGen.head
      (PoolStep.completeDone _
        (⟨1, 4, [], [], [], 1,
          [WorkerEvent.WorkerDone, WorkerEvent.WorkerDone, WorkerEvent.WorkerDone], [], 1, 1⟩ :
          PoolState Nat Nat)
        (by decide) (by decide) (by decide)) ?_
    refine Relation.ReflTransGen.head
      (PoolStep.completeDone _
        (⟨1, 4, [], [], [], 1,
          [WorkerEvent.WorkerDone, WorkerEvent.WorkerDone, WorkerEvent.WorkerDone,
            WorkerEvent.WorkerDone], [], 1, 0⟩ : PoolState Nat Nat)
        (by decide) (by decide) (by decide)) ?_
    exact Relation.ReflTransGen.single
      (PoolStep.tickStep _ exState2 (some ExitReason.drained) (by decide))
  exact ⟨h1, by decide, h2, by decide⟩

/-- Claim C1 (amended): (a) under the cooperative-cancellation contract — a
worker that completes while a close message is pending consumes it and reports
`Stopped` — the effective worker count `cur_workers - outstanding_stops` of
every reachable state is nonnegative; (b) in general (either contract), no
single transition from a well-bookkept state raises the effective count above
the target in force after the transition: it can exceed the target only if it
already did, i.e. only transiently after a command lowered the target, and the
overshoot-by-at-most-one bound of the original claim holds only for target
drops of one. -/
theorem C1_amended :
    (∀ (α β : Type) (n : Nat) (s : PoolState α β),
        PoolReachable true n s → 0 ≤ effWorkers s)
  ∧ (∀ (α β : Type) (coop : Bool) (p q : PoolState α β),
        GoodState p → PoolStep coop p q →
        effWorkers q ≤ max (effWorkers p) ((targetWorkers q : Int))) :=
  ⟨fun _ _ n s h => eff_reachable_nonneg n s h,
   fun _ _ coop p q hg hs => eff_step_le coop p q hg hs⟩

theorem C1_amended_witness :
    (0 : Int) ≤ effWorkers (mkPool 2 : PoolState Nat Nat)
  ∧ effWorkers (pushTask (mkPool 2 : PoolState Nat Nat) 5)
      ≤ max (effWorkers (mkPool 2 : PoolState Nat Nat))
          ((targetWorkers (pushTask (mkPool 2 : PoolState Nat Nat) 5) : Int)) :=
  ⟨C1_amended.1 Nat Nat 2 (mkPool 2) Relation.ReflTransGen.refl,
   C1_amended.2 Nat Nat true (mkPool 2) (pushTask (mkPool 2) 5) (by decide)
     (PoolStep.pushStep _ _ 5 rfl)⟩

/-- Claim C2 is false as stated: a pool created with `num_workers = 0` (which
`WorkerPool::new` does not normalize) and one pushed item exits on its very
first tick with no `Stop` command processed and the item still pending in the
queue, contradicting "in every other state it performs another tick". -/
theorem C2_counterexample :
    (tick (pushTask (mkPool 0 : PoolState Nat Nat) 7)).2 = some ExitReason.drained
  ∧ (tick (pushTask (mkPool 0 : PoolState Nat Nat) 7)).1.queue = [7]
  ∧ effWorkers (tick (pushTask (mkPool 0 : PoolState Nat Nat) 7)).1 = 0 := by
  decide

/-- Claim C2 (amended): the `work()` loop stops with `stopCommand` exactly
when the pending command queue contains a `Stop`; otherwise it stops
(`drained`) exactly when the post-balance effective worker count is zero and
additionally either the queue is empty or the target worker count is zero
(the "no further pending work" of the original claim is accurate only for a
nonzero target); in every other case the tick continues the loop. -/
theorem C2_amended (α β : Type) (p : PoolState α β) (hg : GoodState p) :
    ((tick p).2 = some ExitReason.stopCommand ↔ hasStopCmd p.commands = true)
  ∧ ((tick p).2 = some ExitReason.drained ↔
      (hasStopCmd p.commands = false ∧ effWorkers (tick p).1 = 0
        ∧ ((tick p).1.queue = [] ∨ (tick p).1.num_workers = 0)))
  ∧ ((tick p).2 = none ↔
      (hasStopCmd p.commands = false ∧ 0 < effWorkers (tick p).1)) := by
  refine ⟨tick_snd_stop_iff p, ?_, ?_⟩
  · constructor
    · intro hd
      obtain ⟨hs, _⟩ := (tick_snd_drained_iff p).1 hd
      obtain ⟨he, hq⟩ := tick_drained_props p hg hd
      exact ⟨hs, he, hq⟩
    · rintro ⟨hs, he, _⟩
      exact (tick_snd_drained_iff p).2 ⟨hs, by simp [working, he]⟩
  · constructor
    · intro hn
      obtain ⟨hs, hw⟩ := (tick_snd_none_iff p).1 hn
      refine ⟨hs, ?_⟩
      simpa [working] using hw
    · rintro ⟨hs, he⟩
      exact (tick_snd_none_iff p).2 ⟨hs, by simpa [working] using he⟩

theorem C2_amended_witness :
    GoodState (pushTask (mkPool 1 : PoolState Nat Nat) 3)
  ∧ ((tick (pushTask (mkPool 1 : PoolState Nat Nat) 3)).2 = some ExitReason.stopCommand
      ↔ hasStopCmd (pushTask (mkPool 1 : PoolState Nat Nat) 3).commands = true) :=
  ⟨by decide, (C2_amended Nat Nat (pushTask (mkPool 1) 3) (by decide)).1⟩

/-- Claim C3: on each tick the balancing step takes at most one action — below
target with a non-empty queue it pops exactly the queue's front item, spawns
exactly one worker and increments `cur_workers` by one; above target it queues
exactly one close message and increments `outstanding_stops` by one; in every
other case (at target, or below target with an empty queue) the state is
unchanged. -/
theorem C3_balance_one_action (α β : Type) (p : PoolState α β) :
    (∀ t rest, p.queue = t :: rest → effWorkers p < (targetWorkers p : Int) →
        balance_workers p =
          { p with queue := rest
                   cur_workers := p.cur_workers + 1
                   live := p.live + 1 })
  ∧ (p.queue = [] → effWorkers p < (targetWorkers p : Int) → balance_workers p = p)
  ∧ ((targetWorkers p : Int) < effWorkers p →
        balance_workers p =
          { p with outstanding_stops := p.outstanding_stops + 1
                   close_pending := p.close_pending + 1 })
  ∧ (effWorkers p = (targetWorkers p : Int) → balance_workers p = p) :=
  balance_cases p

theorem C3_balance_one_action_witness :
    balance_workers (⟨2, 0, [5], [], [], 0, [], [], 0, 0⟩ : PoolState Nat Nat)
        = (⟨2, 1, [], [], [], 0, [], [], 0, 1⟩ : PoolState Nat Nat)
  ∧ balance_workers (⟨2, 0, [], [], [], 0, [], [], 0, 0⟩ : PoolState Nat Nat)
        = (⟨2, 0, [], [], [], 0, [], [], 0, 0⟩ : PoolState Nat Nat)
  ∧ balance_workers (⟨0, 2, [], [], [], 0, [], [], 0, 2⟩ : PoolState Nat Nat)
        = (⟨0, 2, [], [], [], 1, [], [], 1, 2⟩ : PoolState Nat Nat)
  ∧ balance_workers (⟨1, 1, [], [], [], 0, [], [], 0, 1⟩ : PoolState Nat Nat)
        = (⟨1, 1, [], [], [], 0, [], [], 0, 1⟩ : PoolState Nat Nat) := by
  refine ⟨?_, ?_, ?_, ?_⟩
  · exact (C3_balance_one_action Nat Nat _).1 5 [] rfl (by decide)
  · exact (C3_balance_one_action Nat Nat _).2.1 rfl (by decide)
  · exact (C3_balance_one_action Nat Nat _).2.2.1 (by decide)
  · exact (C3_balance_one_action Nat Nat _).2.2.2 (by decide)

/-- Claim C4: processing `SetWorkerCount(0)` has exactly the same effect as
processing `SetWorkerCount(1)` — both in a single command and at the head of
any longer command queue — because the command path normalizes `0` to `1`;
`SetWorkerCount(n)` with `n > 0` sets the target to `n`, and no command ever
sets the target to zero. -/
theorem C4_set_worker_count_normalization (α β : Type) (p : PoolState α β) :
    (∀ (rest : List WorkerPoolCommand) (q : PoolState α β),
        runCommandsGo (WorkerPoolCommand.SetWorkerCount 0 :: rest) q
          = runCommandsGo (WorkerPoolCommand.SetWorkerCount 1 :: rest) q)
  ∧ (event_loop { p with commands := [WorkerPoolCommand.SetWorkerCount 0] }
        = event_loop { p with commands := [WorkerPoolCommand.SetWorkerCount 1] })
  ∧ (∀ n, 0 < n → (setWorkerCountCmd p n).num_workers = n)
  ∧ ∀ n, (setWorkerCountCmd p n).num_workers ≠ 0 := by
  refine ⟨?_, ?_, ?_, ?_⟩
  · intro rest q
    simp [runCommandsGo, setWorkerCountCmd]
  · simp [event_loop, processEvents_eq, runCommandsGo, setWorkerCountCmd]
  · intro n hn
    simp only [setWorkerCountCmd]
    rw [if_neg (by omega)]
  · intro n
    simp only [setWorkerCountCmd, ne_eq]
    split <;> omega

theorem C4_set_worker_count_normalization_witness :
    runCommandsGo [WorkerPoolCommand.SetWorkerCount 0] (mkPool 5 : PoolState Nat Nat)
        = runCommandsGo [WorkerPoolCommand.SetWorkerCount 1] (mkPool 5 : PoolState Nat Nat)
  ∧ (setWorkerCountCmd (mkPool 5 : PoolState Nat Nat) 3).num_workers = 3 :=
  ⟨(C4_set_worker_count_normalization Nat Nat (mkPool 5)).1 [] (mkPool 5),
   (C4_set_worker_count_normalization Nat Nat (mkPool 5)).2.2.1 3 (by decide)⟩

/-- Claim C8: when a worker's job future returns, the completion wrapper emits
exactly one `WorkerEvent` — `WorkerDone` for `JobStatus::Done`,
`WorkerStopped` for `JobStatus::Stopped` — and for `JobStatus::Running` it
panics (modelled as `none`: no event, no continuation) rather than emitting
anything. -/
theorem C8_completion_event :
    workerCompletionEvent JobStatus.Done = some WorkerEvent.WorkerDone
  ∧ workerCompletionEvent JobStatus.Stopped = some WorkerEvent.WorkerStopped
  ∧ workerCompletionEvent JobStatus.Running = none
  ∧ ∀ s, workerCompletionEvent s = none ↔ s = JobStatus.Running := by
  refine ⟨rfl, rfl, rfl, ?_⟩
  intro s
  cases s <;> simp [workerCompletionEvent]

/-- Claim C10: neither `WorkerPool::new` nor `set_target_workers` normalizes a
zero worker count (unlike the `SetWorkerCount` command path): a pool created
with target `0` — here with any sequence of pushed items — exits `drained` on
the very first tick of `work()`, with the queue untouched and no worker ever
started. -/
theorem C10_zero_target (α β : Type) (p : PoolState α β) (n : Nat) (xs : List α) :
    (mkPool 0 : PoolState α β).num_workers = 0
  ∧ (set_target_workers p 0).num_workers = 0
  ∧ (set_target_workers p n).num_workers = n
  ∧ (tick (pushAll (mkPool 0 : PoolState α β) xs)).2 = some ExitReason.drained
  ∧ (tick (pushAll (mkPool 0 : PoolState α β) xs)).1.queue = xs
  ∧ (tick (pushAll (mkPool 0 : PoolState α β) xs)).1.cur_workers = 0
  ∧ (tick (pushAll (mkPool 0 : PoolState α β) xs)).1.live = 0 := by
  have hpush : pushAll (mkPool 0 : PoolState α β) xs
      = { (mkPool 0 : PoolState α β) with queue := xs } := by
    rw [pushAll_eq]
    simp [mkPool]
  have hq : tick { (mkPool 0 : PoolState α β) with queue := xs }
      = ({ (mkPool 0 : PoolState α β) with queue := xs }, some ExitReason.drained) := by
    rw [tick_eq]
    simp [hasStopCmd, mkPool, event_loop, processEvents_eq, flush_output, runCommandsGo,
      balance_workers, effWorkers, targetWorkers, working]
  refine ⟨rfl, rfl, rfl, ?_, ?_, ?_, ?_⟩ <;> rw [hpush, hq] <;> simp [mkPool]

/-! ## Duration arithmetic lemmas -/

theorem Duration.toNanos_fromNanos (n : Nat) : (Duration.fromNanos n).toNanos = n := by
  simp only [Duration.fromNanos, Duration.toNanos, NANOS_PER_SEC]
  omega

theorem Duration.fromNanos_normalized (n : Nat) : (Duration.fromNanos n).normalized := by
  simp only [Duration.fromNanos, Duration.normalized]
  exact Nat.mod_lt _ (by norm_num [NANOS_PER_SEC])

theorem Duration.toNanos_mulNat (d : Duration) (k : Nat) :
    (d.mulNat k).toNanos = d.toNanos * k := by
  simp only [Duration.mulNat, Duration.toNanos]
  have h : d.nanos * k / NANOS_PER_SEC * NANOS_PER_SEC + d.nanos * k % NANOS_PER_SEC
      = d.nanos * k := by
    simp only [NANOS_PER_SEC]
    omega
  calc (d.secs * k + d.nanos * k / NANOS_PER_SEC) * NANOS_PER_SEC
          + d.nanos * k % NANOS_PER_SEC
      = d.secs * k * NANOS_PER_SEC
          + (d.nanos * k / NANOS_PER_SEC * NANOS_PER_SEC
              + d.nanos * k % NANOS_PER_SEC) := by ring
    _ = d.secs * k * NANOS_PER_SEC + d.nanos * k := by rw [h]
    _ = (d.secs * NANOS_PER_SEC + d.nanos) * k := by ring

theorem Duration.mulNat_normalized (d : Duration) (k : Nat) :
    (d.mulNat k).normalized := by
  simp only [Duration.mulNat, Duration.normalized]
  exact Nat.mod_lt _ (by norm_num [NANOS_PER_SEC])

theorem Duration.ltb_iff (a b : Duration) (ha : a.normalized) (hb : b.normalized) :
    a.ltb b = true ↔ a.toNanos < b.toNanos := by
  simp only [Duration.ltb, Bool.or_eq_true, Bool.and_eq_true, decide_eq_true_eq]
  simp only [Duration.toNanos, Duration.normalized, NANOS_PER_SEC] at *
  omega

theorem Duration.toNanos_sub (a b : Duration) (ha : a.normalized) (hb : b.normalized)
    (hle : b.toNanos ≤ a.toNanos) : (a.sub b).toNanos = a.toNanos - b.toNanos := by
  simp only [Duration.normalized, NANOS_PER_SEC] at ha hb
  simp only [Duration.toNanos, NANOS_PER_SEC] at hle
  unfold Duration.sub
  split_ifs with h <;> simp only [Duration.toNanos, NANOS_PER_SEC] <;> omega

/-- Unfolding of the pacing block for a configured rate. -/
theorem paceIteration_some (r cpt nthreads : Nat) (e : Duration) :
    paceIteration (some r) cpt nthreads e =
      (if e.ltb (((Duration.fromNanos (1000000000 / r)).mulNat cpt).mulNat nthreads) then
        PaceResult.sleep
          ((((Duration.fromNanos (1000000000 / r)).mulNat cpt).mulNat nthreads).sub e)
      else PaceResult.advisory) := rfl

/-! ## Claims about the rate-limited connection driver -/

/-- Claim C5: with a configured rate `r > 0` (a configured rate of zero makes
the Rust division panic before any pacing happens), the per-request interval
is the integer `1e9 / r` nanoseconds; each iteration's delay is
`tick * conns_per_thread * num_threads` measured from the iteration's own
start, the slot sleeps exactly `delay - elapsed` when `elapsed < delay`, and
otherwise only the advisory warning is emitted; with no configured rate the
pacing block does nothing. -/
theorem C5_pacing (r cpt nthreads : Nat) (e : Duration) (hr : 0 < r)
    (he : e.normalized) :
    (tickDuration (some r)).toNanos = 1000000000 / r
  ∧ (∀ d, paceIteration (some r) cpt nthreads e = PaceResult.sleep d →
        e.toNanos < 1000000000 / r * cpt * nthreads
        ∧ d.toNanos = 1000000000 / r * cpt * nthreads - e.toNanos)
  ∧ (paceIteration (some r) cpt nthreads e = PaceResult.advisory ↔
        1000000000 / r * cpt * nthreads ≤ e.toNanos)
  ∧ ∀ (cpt2 nthreads2 : Nat) (e2 : Duration),
      paceIteration none cpt2 nthreads2 e2 = PaceResult.noPacing := by
  have htickN : (Duration.fromNanos (1000000000 / r)).toNanos = 1000000000 / r :=
    Duration.toNanos_fromNanos _
  have hdelN :
      (((Duration.fromNanos (1000000000 / r)).mulNat cpt).mulNat nthreads).toNanos
        = 1000000000 / r * cpt * nthreads := by
    rw [Duration.toNanos_mulNat, Duration.toNanos_mulNat, htickN]
  have hdnorm :
      (((Duration.fromNanos (1000000000 / r)).mulNat cpt).mulNat nthreads).normalized :=
    Duration.mulNat_normalized _ _
  have hiff := Duration.ltb_iff e
    (((Duration.fromNanos (1000000000 / r)).mulNat cpt).mulNat nthreads) he hdnorm
  refine ⟨htickN, ?_, ?_, fun _ _ _ => rfl⟩
  · intro d hd
    rw [paceIteration_some] at hd
    by_cases hlt :
        e.ltb (((Duration.fromNanos (1000000000 / r)).mulNat cpt).mulNat nthreads) = true
    · rw [if_pos hlt] at hd
      have hltN : e.toNanos < 1000000000 / r * cpt * nthreads := by
        rw [← hdelN]
        exact hiff.1 hlt
      have hdn : d =
          (((Duration.fromNanos (1000000000 / r)).mulNat cpt).mulNat nthreads).sub e := by
        cases hd
        rfl
      refine ⟨hltN, ?_⟩
      rw [hdn, Duration.toNanos_sub _ _ hdnorm he (by omega), hdelN]
    · rw [if_neg (by simp [hlt])] at hd
      cases hd
  · rw [paceIteration_some]
    by_cases hlt :
        e.ltb (((Duration.fromNanos (1000000000 / r)).mulNat cpt).mulNat nthreads) = true
    · rw [if_pos hlt]
      have := hiff.1 hlt
      rw [hdelN] at this
      constructor
      · intro h
        cases h
      · intro h
        omega
    · rw [if_neg (by simp [hlt])]
      have : ¬ e.toNanos <
          (((Duration.fromNanos (1000000000 / r)).mulNat cpt).mulNat nthreads).toNanos := by
        intro hcon
        exact hlt (hiff.2 hcon)
      rw [hdelN] at this
      constructor
      · intro _
        omega
      · intro _
        rfl

theorem C5_pacing_witness :
    (0 : Nat) < 2
  ∧ Duration.normalized { secs := 0, nanos := 100 }
  ∧ (tickDuration (some 2)).toNanos = 1000000000 / 2 :=
  ⟨by decide, by decide,
    (C5_pacing 2 1 1 { secs := 0, nanos := 100 } (by decide) (by decide)).1⟩

/-- Claim C6: in the plan `clobber` spawns, every slot at 0-indexed position
`i` within its thread — in every thread — sleeps exactly
`tick * num_threads * i` nanoseconds before its first iteration (with
`tick = 0`, hence a zero-length stagger, when no rate is configured), and
consecutive thread launches are separated by exactly one `tick`. -/
theorem C6_stagger (numCpus : Nat) (cfg : Config) (msg : Message)
    (plan : List ThreadPlan)
    (hp : clobber numCpus cfg msg = some (Except.ok plan)) :
    (∀ tp, tp ∈ plan → ∀ i sp, tp.slots.get? i = some sp →
        staggerNanosOf sp
          = (tickDuration cfg.rate).toNanos * resolvedThreads numCpus cfg.num_threads * i)
  ∧ ∀ t, threadLaunchOffsetNanos cfg.rate (t + 1)
        = threadLaunchOffsetNanos cfg.rate t + (tickDuration cfg.rate).toNanos := by
  constructor
  · have hplan : plan = clobberPlan numCpus cfg := by
      by_cases h0 : cfg.rate = some 0
      · unfold clobber at hp
        rw [if_pos h0] at hp
        cases hp
      · unfold clobber at hp
        rw [if_neg h0] at hp
        have h2 := Option.some.inj hp
        cases h2
        rfl
    subst hplan
    intro tp htp i sp hsp
    unfold clobberPlan at htp
    simp only [List.mem_map, List.mem_range] at htp
    obtain ⟨t, _, rfl⟩ := htp
    rw [List.get?_map] at hsp
    obtain ⟨j, hj, hfj⟩ := Option.map_eq_some'.mp hsp
    have hji : j = i := by
      obtain ⟨hlt, hget⟩ := List.get?_eq_some.mp hj
      rw [← hget, List.get_range]
    subst hji
    rw [← hfj]
    cases hrate : cfg.rate with
    | none =>
        simp [staggerNanosOf, staggerSleep, hrate, tickDuration, Duration.toNanos]
    | some r =>
        simp only [staggerNanosOf, staggerSleep, hrate, Option.isSome_some, if_true]
        rw [Duration.toNanos_mulNat, Duration.toNanos_mulNat]
  · intro t
    rfl

theorem C6_stagger_witness :
    clobber 1
        { rate := some 1000000, target := "t", duration := none, num_threads := 2,
          connect_timeout := 250, read_timeout := 250, connections := 4 }
        { body := [1] }
      = some (Except.ok
          [{ slots := [{ stagger := some { secs := 0, nanos := 0 } },
                       { stagger := some { secs := 0, nanos := 2000 } }] },
           { slots := [{ stagger := some { secs := 0, nanos := 0 } },
                       { stagger := some { secs := 0, nanos := 2000 } }] }])
  ∧ staggerNanosOf { stagger := some { secs := 0, nanos := 2000 } }
      = (tickDuration (some 1000000)).toNanos * resolvedThreads 1 2 * 1 :=
  ⟨rfl,
    (C6_stagger 1
        { rate := some 1000000, target := "t", duration := none, num_threads := 2,
          connect_timeout := 250, read_timeout := 250, connections := 4 }
        { body := [1] }
        [{ slots := [{ stagger := some { secs := 0, nanos := 0 } },
                     { stagger := some { secs := 0, nanos := 2000 } }] },
         { slots := [{ stagger := some { secs := 0, nanos := 0 } },
                     { stagger := some { secs := 0, nanos := 2000 } }] }]
        rfl).1
      { slots := [{ stagger := some { secs := 0, nanos := 0 } },
                  { stagger := some { secs := 0, nanos := 2000 } }] }
      (by simp) 1 { stagger := some { secs := 0, nanos := 2000 } } rfl⟩

/-- Claim C7: a slot iteration terminates the slot's loop exactly when a run
duration is configured and the elapsed run time has reached it — never because
of a connect, write or read failure: the terminated flag is independent of
every phase outcome, a slot with no configured duration never terminates, any
non-terminated iteration always reaches the pacing block, and the read
phase's own result is discarded entirely. -/
theorem C7_slot_termination (rate : Option Nat) (cpt nthreads : Nat)
    (duration : Option Duration) (start now : Nat)
    (c w rd c2 w2 rd2 : Bool) (e : Duration) :
    ((slotIteration rate cpt nthreads duration start now c w rd e).terminated = true ↔
        ∃ d, duration = some d ∧ start + d.toNanos ≤ now)
  ∧ ((slotIteration rate cpt nthreads duration start now c w rd e).terminated
        = (slotIteration rate cpt nthreads duration start now c2 w2 rd2 e).terminated)
  ∧ (duration = none →
        (slotIteration rate cpt nthreads duration start now c w rd e).terminated = false)
  ∧ ((slotIteration rate cpt nthreads duration start now c w rd e).terminated = false →
        (slotIteration rate cpt nthreads duration start now c w rd e).pace
          = paceIteration rate cpt nthreads e)
  ∧ slotIteration rate cpt nthreads duration start now c w rd e
      = slotIteration rate cpt nthreads duration start now c w rd2 e := by
  cases duration with
  | none => simp [slotIteration]
  | some d => by_cases h : start + d.toNanos ≤ now <;> simp [slotIteration, h]

theorem C7_slot_termination_witness :
    (slotIteration none 1 1 none 0 5 true true false
        { secs := 0, nanos := 0 }).terminated = false
  ∧ (slotIteration none 1 1 (some { secs := 1, nanos := 0 }) 0 1000000000 true false true
        { secs := 0, nanos := 0 }).terminated = true :=
  ⟨(C7_slot_termination none 1 1 none 0 5 true true false false false false
      { secs := 0, nanos := 0 }).2.2.1 rfl,
   (C7_slot_termination none 1 1 (some { secs := 1, nanos := 0 }) 0 1000000000
      true false true false false false { secs := 0, nanos := 0 }).1.2
     ⟨{ secs := 1, nanos := 0 }, rfl, by decide⟩⟩

/-- Claim C9: the core traffic generator never constructs the io-error branch
of its `std::io::Result<()>` return type: whenever `clobber` returns at all
(its only deterministic local failure, the `1e9 / rate` division panic on a
configured rate of zero, is modelled as `none`), it returns `Ok`. -/
theorem C9_clobber_ok (numCpus : Nat) (cfg : Config) (msg : Message)
    (res : Except IoErr (List ThreadPlan))
    (h : clobber numCpus cfg msg = some res) :
    ∃ plan, res = Except.ok plan := by
  by_cases h0 : cfg.rate = some 0
  · unfold clobber at h
    rw [if_pos h0] at h
    cases h
  · unfold clobber at h
    rw [if_neg h0] at h
    have h2 := Option.some.inj h
    cases h2
    exact ⟨clobberPlan numCpus cfg, rfl⟩

theorem C9_clobber_ok_witness :
    clobber 1
        { rate := none, target := "a", duration := none, num_threads := 1,
          connect_timeout := 250, read_timeout := 250, connections := 2 }
        { body := [] }
      = some (Except.ok (clobberPlan 1
          { rate := none, target := "a", duration := none, num_threads := 1,
            connect_timeout := 250, read_timeout := 250, connections := 2 }))
  ∧ ∃ plan,
      (Except.ok (clobberPlan 1
          { rate := none, target := "a", duration := none, num_threads := 1,
            connect_timeout := 250, read_timeout := 250, connections := 2 }) :
        Except IoErr (List ThreadPlan)) = Except.ok plan :=
  ⟨rfl,
    C9_clobber_ok 1
      { rate := none, target := "a", duration := none, num_threads := 1,
        connect_timeout := 250, read_timeout := 250, connections := 2 }
      { body := [] } _ rfl⟩

end Clobber
